import Mathlib

/-!
Verification of the Voxel Monkey voxel edit engine.

The model is a shallow embedding of the editor session state held by the
top-level `App` component (`src/components/VoxelModel.tsx`, second document):
the voxel store (`voxels`), the bounded undo/redo history (`history`,
`historyStep`), the current color/tool, and the operations
`recordHistory`, `undo`, `redo`, `addVoxel`, `removeVoxel`,
`updateVoxelColor`, `handlePickColor`, the voxel-click tool dispatcher
`handleVoxelClick`, and the AI-preview recolor function
`updatePreviewColor`.

JavaScript voxel objects are mutable and shared between the store and the
history snapshots (`recordHistory` pushes `[...newVoxels]`, a shallow copy,
and `updateVoxelColor` mutates `newVoxels[index].color` in place).  To keep
this aliasing observable the model uses an explicit heap: a voxel object is
a `VoxelId` (a reference), the heap maps references to voxel records, the
store and every history snapshot are lists of references, and in-place
mutation is a heap update.  Reading the store content dereferences through
the heap, which is exactly what rendering does in the source.
-/

/-- Integer lattice coordinates, `Vector3` of `src/types.ts` (positions are
always integral: grid clicks round with `Math.floor(p + 0.5)` and face
normals are unit axis vectors). -/
structure Vec3 where
  x : Int
  y : Int
  z : Int
deriving DecidableEq, Repr

/-- Componentwise vector sum, the `voxel.position[i] + normal[i]` computation
of the click handlers. -/
def vecAdd (a b : Vec3) : Vec3 :=
  ⟨a.x + b.x, a.y + b.y, a.z + b.z⟩

/-- The `Voxel` record of `src/types.ts`: a position and an (opaque) display
color string. -/
structure Voxel where
  position : Vec3
  color : String
deriving DecidableEq, Repr

/-- A reference to a mutable JavaScript voxel object, an index into the heap. -/
abbrev VoxelId := Nat

/-- The `ToolType` union of `src/types.ts`. -/
inductive ToolType where
  | PENCIL
  | ERASER
  | PAINT
  | PICKER
  | DUPLICATE
deriving DecidableEq, Repr

/-- Placeholder for dereferencing an out-of-range reference; never reached on
states produced by the operations. -/
def defaultVoxel : Voxel := ⟨⟨0, 0, 0⟩, ""⟩

/-- Dereference a voxel object. -/
def heapGet (heap : List Voxel) (id : VoxelId) : Voxel :=
  heap.getD id defaultVoxel

/-- The editor session state of the `App` component: `voxels`, `history`,
`historyStep` (initially `-1`), `currentColor` and `currentTool`, plus the
explicit heap of allocated voxel objects. -/
structure EditorState where
  heap : List Voxel
  voxels : List VoxelId
  history : List (List VoxelId)
  historyStep : Int
  currentColor : String
  currentTool : ToolType
deriving DecidableEq, Repr

/-- The store content as rendering sees it: each reference dereferenced. -/
def content (s : EditorState) : List Voxel :=
  s.voxels.map (heapGet s.heap)

/-- Positions of a reference list, read through a heap. -/
def posList (heap : List Voxel) (ids : List VoxelId) : List Vec3 :=
  ids.map (fun id => (heapGet heap id).position)

/-- The occupancy test of `addVoxel`:
`voxels.some(v => v.position[0] === pos[0] && v.position[1] === pos[1] && v.position[2] === pos[2])`. -/
def occupiedB (pos : Vec3) (s : EditorState) : Bool :=
  s.voxels.any (fun id => decide ((heapGet s.heap id).position = pos))

/-- The `recordHistory` callback: drop everything after the cursor
(`history.slice(0, historyStep + 1)`), push a shallow copy of the new store,
shift the oldest entry off when the length exceeds 20, and put the cursor on
the last index. -/
def recordHistory (newVoxels : List VoxelId) (s : EditorState) : EditorState :=
  let h1 := s.history.take (s.historyStep + 1).toNat ++ [newVoxels]
  let h2 := if 20 < h1.length then h1.tail else h1
  { s with history := h2, historyStep := (h2.length : Int) - 1 }

/-- The `undo` handler: when the cursor is positive, move it back one step and
reinstall (a shallow copy of) the snapshot at the new cursor. -/
def undo (s : EditorState) : EditorState :=
  if 0 < s.historyStep then
    { s with voxels := s.history.getD (s.historyStep - 1).toNat [],
             historyStep := s.historyStep - 1 }
  else s

/-- The `redo` handler: when the cursor is before the last snapshot, move it
forward one step and reinstall the snapshot at the new cursor. -/
def redo (s : EditorState) : EditorState :=
  if s.historyStep < (s.history.length : Int) - 1 then
    { s with voxels := s.history.getD (s.historyStep + 1).toNat [],
             historyStep := s.historyStep + 1 }
  else s

/-- The color resolution `overrideColor || currentColor` of `addVoxel`:
`undefined` and the empty string (the only falsy strings reachable here) fall
back to the current color. -/
def resolveColor (overrideColor : Option String) (currentColor : String) : String :=
  match overrideColor with
  | some c => if c = "" then currentColor else c
  | none => currentColor

/-- The `addVoxel` operation: a silent no-op when the position is occupied;
otherwise allocate a fresh voxel object `{position: pos, color:
overrideColor || currentColor}`, append its reference, and record one history
snapshot of the new store. -/
def addVoxel (pos : Vec3) (overrideColor : Option String) (s : EditorState) : EditorState :=
  if occupiedB pos s then s
  else
    let v : Voxel := ⟨pos, resolveColor overrideColor s.currentColor⟩
    let newVoxels := s.voxels ++ [s.heap.length]
    recordHistory newVoxels { s with heap := s.heap ++ [v], voxels := newVoxels }

/-- The `removeVoxel` operation: `voxels.filter((_, i) => i !== index)`, then
record a history snapshot of the result.  No index validation is performed. -/
def removeVoxel (index : Int) (s : EditorState) : EditorState :=
  let newVoxels := (s.voxels.enum.filter (fun q => decide ((q.1 : Int) ≠ index))).map Prod.snd
  recordHistory newVoxels { s with voxels := newVoxels }

/-- The `updateVoxelColor` operation: shallow-copy the store array and mutate
the voxel object at `index` in place (`newVoxels[index].color = currentColor`),
then record a snapshot of the (reference-identical) store.  On an out-of-range
index the in-place mutation throws a `TypeError` (the element is `undefined`)
before any state update, modelled as `none`. -/
def updateVoxelColor (index : Int) (s : EditorState) : Option EditorState :=
  if 0 ≤ index ∧ index < (s.voxels.length : Int) then
    let id := s.voxels.getD index.toNat 0
    let oldV := heapGet s.heap id
    some (recordHistory s.voxels { s with heap := s.heap.set id ⟨oldV.position, s.currentColor⟩ })
  else none

/-- The `handlePickColor` handler: copy the clicked voxel's color into the
current color and switch the tool to PENCIL; an out-of-range index throws
(`voxels[index].color` on `undefined`), modelled as `none`. -/
def handlePickColor (index : Nat) (s : EditorState) : Option EditorState :=
  if index < s.voxels.length then
    some { s with currentColor := (heapGet s.heap (s.voxels.getD index 0)).color,
                  currentTool := ToolType.PENCIL }
  else none

/-- The `handleVoxelClick` tool dispatcher of `VoxelModel` for a click on the
voxel at `index`, with the face normal when one was resolved.  PENCIL and
DUPLICATE place at `sourceVoxel.position + normal`; DUPLICATE passes the
source voxel's own color as override, PENCIL passes `undefined`; with no
resolvable normal they do nothing.  An out-of-range index makes the
`voxels[index]` dereference throw, modelled as `none`. -/
def handleVoxelClick (index : Nat) (normal : Option Vec3) (s : EditorState) :
    Option EditorState :=
  match s.currentTool with
  | ToolType.ERASER => some (removeVoxel (index : Int) s)
  | ToolType.PAINT => updateVoxelColor (index : Int) s
  | ToolType.PICKER => handlePickColor index s
  | ToolType.PENCIL =>
      match normal with
      | some n =>
          if index < s.voxels.length then
            some (addVoxel (vecAdd (heapGet s.heap (s.voxels.getD index 0)).position n) none s)
          else none
      | none => some s
  | ToolType.DUPLICATE =>
      match normal with
      | some n =>
          if index < s.voxels.length then
            some (addVoxel (vecAdd (heapGet s.heap (s.voxels.getD index 0)).position n)
                  (some (heapGet s.heap (s.voxels.getD index 0)).color) s)
          else none
      | none => some s

/-- The `setCurrentColor` state setter. -/
def setCurrentColor (c : String) (s : EditorState) : EditorState :=
  { s with currentColor := c }

/-- One editor mutation event, for quantifying over interaction sequences. -/
inductive Op where
  | add (pos : Vec3) (overrideColor : Option String)
  | remove (index : Int)
  | recolor (index : Int)
  | setColor (c : String)
  | undoOp
  | redoOp
deriving DecidableEq, Repr

/-- Apply one event to the session state.  A `recolor` whose in-place mutation
throws leaves the React state untouched (the exception fires before
`setVoxels`). -/
def applyOp (s : EditorState) : Op → EditorState
  | Op.add pos c => addVoxel pos c s
  | Op.remove i => removeVoxel i s
  | Op.recolor i => (updateVoxelColor i s).getD s
  | Op.setColor c => setCurrentColor c s
  | Op.undoOp => undo s
  | Op.redoOp => redo s

/-- The initial session state: empty store, empty history, cursor `-1`,
tool PENCIL, and the configured default color. -/
def initState (c0 : String) : EditorState :=
  ⟨[], [], [], -1, c0, ToolType.PENCIL⟩

/-- Run an event sequence from the initial state. -/
def run (c0 : String) (ops : List Op) : EditorState :=
  ops.foldl applyOp (initState c0)

/-!
Basic facts about the heap, `posList` and `recordHistory`.
-/

lemma heapGet_append_left (heap tl : List Voxel) (id : VoxelId) (h : id < heap.length) :
    heapGet (heap ++ tl) id = heapGet heap id := by
  simp [heapGet, List.getD_eq_getElem?_getD, List.getElem?_append_left h]

lemma heapGet_concat_self (heap : List Voxel) (v : Voxel) :
    heapGet (heap ++ [v]) heap.length = v := by
  simp [heapGet, List.getD_eq_getElem?_getD, List.getElem?_concat_length]

lemma heapGet_set_position (heap : List Voxel) (j : VoxelId) (c : String) (id : VoxelId) :
    (heapGet (heap.set j ⟨(heapGet heap j).position, c⟩) id).position =
      (heapGet heap id).position := by
  simp only [heapGet, List.getD_eq_getElem?_getD, List.getElem?_set]
  by_cases hij : j = id
  · subst hij
    by_cases hj : j < heap.length
    · simp [hj, List.getElem?_eq_getElem hj]
    · simp [hj, List.getElem?_eq_none (le_of_not_lt hj)]
  · simp [hij]

lemma posList_append_left (heap tl : List Voxel) (ids : List VoxelId)
    (hb : ∀ id ∈ ids, id < heap.length) :
    posList (heap ++ tl) ids = posList heap ids :=
  List.map_congr_left (fun id hid => by rw [heapGet_append_left heap tl id (hb id hid)])

lemma posList_set_color (heap : List Voxel) (j : VoxelId) (c : String) (ids : List VoxelId) :
    posList (heap.set j ⟨(heapGet heap j).position, c⟩) ids = posList heap ids :=
  List.map_congr_left (fun id _ => heapGet_set_position heap j c id)

lemma getD_eq_default_or_mem {α : Type} (l : List α) (n : Nat) (d : α) :
    l.getD n d = d ∨ l.getD n d ∈ l := by
  by_cases h : n < l.length
  · right
    rw [List.getD_eq_getElem?_getD, List.getElem?_eq_getElem h]
    exact List.getElem_mem h
  · left
    rw [List.getD_eq_getElem?_getD, List.getElem?_eq_none (le_of_not_lt h)]
    rfl

lemma recordHistory_heap (r : List VoxelId) (s : EditorState) :
    (recordHistory r s).heap = s.heap := rfl

lemma recordHistory_voxels (r : List VoxelId) (s : EditorState) :
    (recordHistory r s).voxels = s.voxels := rfl

lemma recordHistory_currentColor (r : List VoxelId) (s : EditorState) :
    (recordHistory r s).currentColor = s.currentColor := rfl

lemma recordHistory_step (r : List VoxelId) (s : EditorState) :
    (recordHistory r s).historyStep = ((recordHistory r s).history.length : Int) - 1 := rfl

lemma recordHistory_getLast (r : List VoxelId) (s : EditorState) :
    (recordHistory r s).history.getLast? = some r := by
  show (if 20 < (s.history.take (s.historyStep + 1).toNat ++ [r]).length then
          (s.history.take (s.historyStep + 1).toNat ++ [r]).tail
        else s.history.take (s.historyStep + 1).toNat ++ [r]).getLast? = some r
  split
  next hlen =>
    have hl : s.history.take (s.historyStep + 1).toNat ≠ [] := by
      intro he
      rw [he] at hlen
      simp at hlen
    rw [List.tail_append_of_ne_nil hl, List.getLast?_concat]
  next => rw [List.getLast?_concat]

lemma recordHistory_length (r : List VoxelId) (s : EditorState)
    (hk : (s.historyStep + 1).toNat ≤ s.history.length)
    (hlen : s.history.length ≤ 20) :
    (recordHistory r s).history.length = min ((s.historyStep + 1).toNat + 1) 20 := by
  show (if 20 < (s.history.take (s.historyStep + 1).toNat ++ [r]).length then
          (s.history.take (s.historyStep + 1).toNat ++ [r]).tail
        else s.history.take (s.historyStep + 1).toNat ++ [r]).length = _
  have hky : (s.history.take (s.historyStep + 1).toNat).length = (s.historyStep + 1).toNat := by
    rw [List.length_take]
    exact Nat.min_eq_left hk
  split
  next h =>
    rw [List.length_tail]
    simp only [List.length_append, List.length_singleton, hky] at h ⊢
    omega
  next h =>
    simp only [List.length_append, List.length_singleton, hky] at h ⊢
    omega

lemma recordHistory_length_le (r : List VoxelId) (s : EditorState)
    (hlen : s.history.length ≤ 20) :
    (recordHistory r s).history.length ≤ 20 := by
  show (if 20 < (s.history.take (s.historyStep + 1).toNat ++ [r]).length then
          (s.history.take (s.historyStep + 1).toNat ++ [r]).tail
        else s.history.take (s.historyStep + 1).toNat ++ [r]).length ≤ 20
  have htk : (s.history.take (s.historyStep + 1).toNat).length ≤ 20 := by
    rw [List.length_take]
    omega
  split
  next h =>
    rw [List.length_tail]
    simp only [List.length_append, List.length_singleton]
    omega
  next h =>
    simp only [List.length_append, List.length_singleton] at h ⊢
    omega

lemma recordHistory_mem (r : List VoxelId) (s : EditorState) (snap : List VoxelId)
    (h : snap ∈ (recordHistory r s).history) : snap ∈ s.history ∨ snap = r := by
  have h' : snap ∈ s.history.take (s.historyStep + 1).toNat ++ [r] := by
    revert h
    show snap ∈ (if 20 < (s.history.take (s.historyStep + 1).toNat ++ [r]).length then
            (s.history.take (s.historyStep + 1).toNat ++ [r]).tail
          else s.history.take (s.historyStep + 1).toNat ++ [r]) → _
    split
    · exact fun h => (List.tail_sublist _).subset h
    · exact id
  rcases List.mem_append.1 h' with h1 | h2
  · exact Or.inl (List.take_subset _ _ h1)
  · right
    simpa using h2

lemma redo_recordHistory (r : List VoxelId) (s : EditorState) :
    redo (recordHistory r s) = recordHistory r s := by
  unfold redo
  rw [if_neg]
  rw [recordHistory_step]
  exact lt_irrefl _

lemma undo_of_step_nonpos (s : EditorState) (h : s.historyStep ≤ 0) : undo s = s := by
  unfold undo
  rw [if_neg]
  omega

lemma undo_iterate_stable :
    ∀ (n : Nat) (s : EditorState), s.historyStep ≤ (n : Int) → undo^[n + 1] s = undo^[n] s := by
  intro n
  induction n with
  | zero =>
    intro s h
    simpa using undo_of_step_nonpos s (by exact_mod_cast h)
  | succ m ih =>
    intro s h
    rw [Function.iterate_succ_apply undo (m + 1) s, Function.iterate_succ_apply undo m s]
    apply ih
    by_cases hg : 0 < s.historyStep
    · rw [undo, if_pos hg]
      show s.historyStep - 1 ≤ (m : Int)
      push_cast at h
      omega
    · rw [undo, if_neg hg]
      push_cast at h
      omega

/-!
Shape lemmas for the individual operations.
-/

lemma occupiedB_false_iff (pos : Vec3) (s : EditorState) :
    occupiedB pos s = false ↔ ∀ id ∈ s.voxels, (heapGet s.heap id).position ≠ pos := by
  simp [occupiedB, List.any_eq_false]

lemma addVoxel_occupied (pos : Vec3) (c : Option String) (s : EditorState)
    (h : occupiedB pos s = true) : addVoxel pos c s = s := by
  unfold addVoxel
  rw [h]
  rfl

lemma addVoxel_not_occupied (pos : Vec3) (c : Option String) (s : EditorState)
    (h : occupiedB pos s = false) :
    addVoxel pos c s =
      recordHistory (s.voxels ++ [s.heap.length])
        { s with heap := s.heap ++ [(⟨pos, resolveColor c s.currentColor⟩ : Voxel)],
                 voxels := s.voxels ++ [s.heap.length] } := by
  unfold addVoxel
  rw [h]
  rfl

lemma enumFrom_filter_ne_of_invalid :
    ∀ (l : List VoxelId) (n : Nat) (index : Int),
      (index < (n : Int) ∨ ((n : Int) + l.length) ≤ index) →
      ((List.enumFrom n l).filter (fun q => decide ((q.1 : Int) ≠ index))).map Prod.snd = l := by
  intro l
  induction l with
  | nil => intro n index _; rfl
  | cons a t ih =>
    intro n index h
    have hne : ((n : Int) ≠ index) := by
      rcases h with h | h
      · omega
      · simp only [List.length_cons] at h
        push_cast at h
        omega
    rw [List.enumFrom_cons, List.filter_cons_of_pos (by simpa using hne), List.map_cons]
    rw [ih (n + 1) index (by
      rcases h with h | h
      · left
        push_cast
        omega
      · right
        simp only [List.length_cons] at h
        push_cast at h ⊢
        omega)]

lemma removeVoxel_invalid (index : Int) (s : EditorState)
    (h : index < 0 ∨ (s.voxels.length : Int) ≤ index) :
    removeVoxel index s = recordHistory s.voxels s := by
  unfold removeVoxel
  rw [show (s.voxels.enum.filter (fun q => decide ((q.1 : Int) ≠ index))).map Prod.snd
        = s.voxels from
    enumFrom_filter_ne_of_invalid s.voxels 0 index (by
      rcases h with h | h
      · left
        exact_mod_cast h
      · right
        simpa using h)]

lemma removeVoxel_newVoxels_sublist (index : Int) (s : EditorState) :
    ((s.voxels.enum.filter (fun q => decide ((q.1 : Int) ≠ index))).map Prod.snd).Sublist
      s.voxels := by
  have h1 := List.Sublist.map Prod.snd
    (List.filter_sublist (p := fun q : Nat × VoxelId => decide ((q.1 : Int) ≠ index)) s.voxels.enum)
  rwa [List.enum_map_snd] at h1

lemma updateVoxelColor_invalid (index : Int) (s : EditorState)
    (h : index < 0 ∨ (s.voxels.length : Int) ≤ index) :
    updateVoxelColor index s = none := by
  unfold updateVoxelColor
  rw [if_neg]
  omega

lemma updateVoxelColor_valid (index : Int) (s : EditorState)
    (h0 : 0 ≤ index) (h1 : index < (s.voxels.length : Int)) :
    updateVoxelColor index s =
      some (recordHistory s.voxels
        { s with heap := (s.heap.set (s.voxels.getD index.toNat 0)
            ⟨(heapGet s.heap (s.voxels.getD index.toNat 0)).position, s.currentColor⟩) }) := by
  unfold updateVoxelColor
  rw [if_pos ⟨h0, h1⟩]

/-!
The reachable-state invariant: every store/snapshot reference points into the
heap, the store and every snapshot are duplicate-free by position, and the
history never holds more than 20 snapshots.
-/

def WF (s : EditorState) : Prop :=
  (∀ id ∈ s.voxels, id < s.heap.length) ∧
  (posList s.heap s.voxels).Nodup ∧
  (∀ snap ∈ s.history, (∀ id ∈ snap, id < s.heap.length) ∧ (posList s.heap snap).Nodup) ∧
  s.history.length ≤ 20

lemma WF_recordHistory (r : List VoxelId) (s : EditorState)
    (hb : ∀ id ∈ s.voxels, id < s.heap.length)
    (hn : (posList s.heap s.voxels).Nodup)
    (hrb : ∀ id ∈ r, id < s.heap.length)
    (hrn : (posList s.heap r).Nodup)
    (hH : ∀ snap ∈ s.history, (∀ id ∈ snap, id < s.heap.length) ∧ (posList s.heap snap).Nodup)
    (hlen : s.history.length ≤ 20) :
    WF (recordHistory r s) := by
  refine ⟨?_, ?_, ?_, recordHistory_length_le r s hlen⟩
  · rw [recordHistory_voxels, recordHistory_heap]
    exact hb
  · rw [recordHistory_voxels, recordHistory_heap]
    exact hn
  · intro snap hsnap
    rw [recordHistory_heap]
    rcases recordHistory_mem r s snap hsnap with h | h
    · exact hH snap h
    · subst h
      exact ⟨hrb, hrn⟩

lemma WF_addVoxel (pos : Vec3) (c : Option String) (s : EditorState) (h : WF s) :
    WF (addVoxel pos c s) := by
  obtain ⟨hb, hn, hH, hlen⟩ := h
  by_cases hocc : occupiedB pos s = true
  · rw [addVoxel_occupied pos c s hocc]
    exact ⟨hb, hn, hH, hlen⟩
  · replace hocc : occupiedB pos s = false := Bool.eq_false_iff.2 hocc
    rw [addVoxel_not_occupied pos c s hocc]
    have hnotmem := (occupiedB_false_iff pos s).1 hocc
    have hb' : ∀ id ∈ s.voxels ++ [s.heap.length],
        id < (s.heap ++ [(⟨pos, resolveColor c s.currentColor⟩ : Voxel)]).length := by
      intro id hid
      rw [List.length_append, List.length_singleton]
      rcases List.mem_append.1 hid with h1 | h2
      · exact Nat.lt_succ_of_lt (hb id h1)
      · simp only [List.mem_singleton] at h2
        subst h2
        exact Nat.lt_succ_self _
    have hp : posList (s.heap ++ [(⟨pos, resolveColor c s.currentColor⟩ : Voxel)])
        (s.voxels ++ [s.heap.length]) = posList s.heap s.voxels ++ [pos] := by
      unfold posList
      rw [List.map_append]
      congr 1
      · exact posList_append_left s.heap _ s.voxels hb
      · simp [heapGet_concat_self]
    have hn' : (posList (s.heap ++ [(⟨pos, resolveColor c s.currentColor⟩ : Voxel)])
        (s.voxels ++ [s.heap.length])).Nodup := by
      rw [hp, List.nodup_append]
      refine ⟨hn, List.nodup_singleton pos, ?_⟩
      intro x hx hx'
      simp only [List.mem_singleton] at hx'
      subst hx'
      rcases List.mem_map.1 hx with ⟨id, hid, hpos⟩
      exact hnotmem id hid hpos
    refine WF_recordHistory _ _ hb' hn' hb' hn' ?_ hlen
    intro snap hsnap
    obtain ⟨hsb, hsn⟩ := hH snap hsnap
    refine ⟨?_, ?_⟩
    · intro id hid
      rw [List.length_append, List.length_singleton]
      exact Nat.lt_succ_of_lt (hsb id hid)
    · rwa [posList_append_left s.heap _ snap hsb]

lemma WF_removeVoxel (index : Int) (s : EditorState) (h : WF s) :
    WF (removeVoxel index s) := by
  obtain ⟨hb, hn, hH, hlen⟩ := h
  have hsub := removeVoxel_newVoxels_sublist index s
  unfold removeVoxel
  refine WF_recordHistory _ _ ?_ ?_ ?_ ?_ hH hlen
  · exact fun id hid => hb id (hsub.subset hid)
  · exact hn.sublist (List.Sublist.map _ hsub)
  · exact fun id hid => hb id (hsub.subset hid)
  · exact hn.sublist (List.Sublist.map _ hsub)

lemma WF_updateVoxelColor (index : Int) (s : EditorState) (h : WF s) :
    WF ((updateVoxelColor index s).getD s) := by
  obtain ⟨hb, hn, hH, hlen⟩ := h
  by_cases hv : 0 ≤ index ∧ index < (s.voxels.length : Int)
  · rw [updateVoxelColor_valid index s hv.1 hv.2, Option.getD_some]
    refine WF_recordHistory _ _ ?_ ?_ ?_ ?_ ?_ hlen
    · intro id hid
      rw [List.length_set]
      exact hb id hid
    · rw [posList_set_color]
      exact hn
    · intro id hid
      rw [List.length_set]
      exact hb id hid
    · rw [posList_set_color]
      exact hn
    · intro snap hsnap
      obtain ⟨hsb, hsn⟩ := hH snap hsnap
      refine ⟨?_, ?_⟩
      · intro id hid
        rw [List.length_set]
        exact hsb id hid
      · rw [posList_set_color]
        exact hsn
  · rw [updateVoxelColor_invalid index s (by omega), Option.getD_none]
    exact ⟨hb, hn, hH, hlen⟩

lemma WF_undo (s : EditorState) (h : WF s) : WF (undo s) := by
  obtain ⟨hb, hn, hH, hlen⟩ := h
  unfold undo
  split
  · refine ⟨?_, ?_, hH, hlen⟩
    · rcases getD_eq_default_or_mem s.history (s.historyStep - 1).toNat [] with he | hm
      · rw [he]
        intro id hid
        simp at hid
      · exact (hH _ hm).1
    · rcases getD_eq_default_or_mem s.history (s.historyStep - 1).toNat [] with he | hm
      · rw [he]
        exact List.nodup_nil
      · exact (hH _ hm).2
  · exact ⟨hb, hn, hH, hlen⟩

lemma WF_redo (s : EditorState) (h : WF s) : WF (redo s) := by
  obtain ⟨hb, hn, hH, hlen⟩ := h
  unfold redo
  split
  · refine ⟨?_, ?_, hH, hlen⟩
    · rcases getD_eq_default_or_mem s.history (s.historyStep + 1).toNat [] with he | hm
      · rw [he]
        intro id hid
        simp at hid
      · exact (hH _ hm).1
    · rcases getD_eq_default_or_mem s.history (s.historyStep + 1).toNat [] with he | hm
      · rw [he]
        exact List.nodup_nil
      · exact (hH _ hm).2
  · exact ⟨hb, hn, hH, hlen⟩

lemma WF_applyOp (s : EditorState) (op : Op) (h : WF s) : WF (applyOp s op) := by
  cases op with
  | add pos c => exact WF_addVoxel pos c s h
  | remove i => exact WF_removeVoxel i s h
  | recolor i => exact WF_updateVoxelColor i s h
  | setColor c => exact h
  | undoOp => exact WF_undo s h
  | redoOp => exact WF_redo s h

lemma WF_foldl : ∀ (ops : List Op) (s : EditorState), WF s → WF (ops.foldl applyOp s) := by
  intro ops
  induction ops with
  | nil => exact fun s h => h
  | cons op t ih => exact fun s h => ih (applyOp s op) (WF_applyOp s op h)

lemma WF_initState (c0 : String) : WF (initState c0) := by
  refine ⟨?_, ?_, ?_, ?_⟩
  · intro id hid
    simp [initState] at hid
  · exact List.nodup_nil
  · intro snap hsnap
    simp [initState] at hsnap
  · simp [initState]

lemma run_WF (c0 : String) (ops : List Op) : WF (run c0 ops) :=
  WF_foldl ops (initState c0) (WF_initState c0)

/-!
Content-level facts about `addVoxel`.
-/

lemma content_recordHistory (r : List VoxelId) (s : EditorState) :
    content (recordHistory r s) = content s := rfl

lemma occupiedB_recordHistory (pos : Vec3) (r : List VoxelId) (s : EditorState) :
    occupiedB pos (recordHistory r s) = occupiedB pos s := rfl

lemma content_addVoxel (pos : Vec3) (c : Option String) (s : EditorState)
    (hocc : occupiedB pos s = false)
    (hb : ∀ id ∈ s.voxels, id < s.heap.length) :
    content (addVoxel pos c s) = content s ++ [⟨pos, resolveColor c s.currentColor⟩] := by
  rw [addVoxel_not_occupied pos c s hocc]
  show ((s.voxels ++ [s.heap.length]).map
      (heapGet (s.heap ++ [(⟨pos, resolveColor c s.currentColor⟩ : Voxel)]))) = _
  rw [List.map_append]
  congr 1
  · exact List.map_congr_left (fun id hid => heapGet_append_left s.heap _ id (hb id hid))
  · simp [heapGet_concat_self]

lemma occupiedB_addVoxel_self (pos : Vec3) (c : Option String) (s : EditorState) :
    occupiedB pos (addVoxel pos c s) = true := by
  by_cases hocc : occupiedB pos s = true
  · rw [addVoxel_occupied pos c s hocc]
    exact hocc
  · replace hocc : occupiedB pos s = false := Bool.eq_false_iff.2 hocc
    rw [addVoxel_not_occupied pos c s hocc, occupiedB_recordHistory]
    show (s.voxels ++ [s.heap.length]).any _ = true
    rw [List.any_append]
    apply Bool.or_eq_true_iff.2
    right
    show List.any [s.heap.length] _ = true
    simp only [List.any_cons, List.any_nil, Bool.or_false]
    rw [show heapGet (s.heap ++ [(⟨pos, resolveColor c s.currentColor⟩ : Voxel)]) s.heap.length
          = ⟨pos, resolveColor c s.currentColor⟩ from heapGet_concat_self s.heap _]
    simp

lemma resolveColor_some_of_ne (c currentColor : String) (h : c ≠ "") :
    resolveColor (some c) currentColor = c := by
  simp [resolveColor, h]

/-- C3: adding at an already-occupied position is a silent no-op (the whole
session state, store included, is returned unchanged and no history snapshot
is recorded), and placement is idempotent: a second `add` at the same position
with any color leaves the state exactly as it was after the first `add`. -/
theorem C3_add_occupied_noop (s : EditorState) (pos : Vec3) (c c2 : Option String) :
    (occupiedB pos s = true → addVoxel pos c s = s) ∧
    addVoxel pos c2 (addVoxel pos c s) = addVoxel pos c s :=
  ⟨fun h => addVoxel_occupied pos c s h,
   addVoxel_occupied pos c2 (addVoxel pos c s) (occupiedB_addVoxel_self pos c s)⟩

/-- Witness for C3 at a concrete occupied store. -/
theorem C3_add_occupied_noop_witness :
    (occupiedB ⟨0, 0, 0⟩ ⟨[⟨⟨0, 0, 0⟩, "#ff0000"⟩], [0], [[0]], 0, "#00ff00", ToolType.PENCIL⟩
       = true) ∧
    addVoxel ⟨0, 0, 0⟩ (some "#123456")
        ⟨[⟨⟨0, 0, 0⟩, "#ff0000"⟩], [0], [[0]], 0, "#00ff00", ToolType.PENCIL⟩ =
      ⟨[⟨⟨0, 0, 0⟩, "#ff0000"⟩], [0], [[0]], 0, "#00ff00", ToolType.PENCIL⟩ ∧
    addVoxel ⟨0, 0, 0⟩ (some "#654321")
        (addVoxel ⟨0, 0, 0⟩ (some "#123456")
          ⟨[⟨⟨0, 0, 0⟩, "#ff0000"⟩], [0], [[0]], 0, "#00ff00", ToolType.PENCIL⟩) =
      addVoxel ⟨0, 0, 0⟩ (some "#123456")
        ⟨[⟨⟨0, 0, 0⟩, "#ff0000"⟩], [0], [[0]], 0, "#00ff00", ToolType.PENCIL⟩ :=
  ⟨by decide,
   (C3_add_occupied_noop ⟨[⟨⟨0, 0, 0⟩, "#ff0000"⟩], [0], [[0]], 0, "#00ff00", ToolType.PENCIL⟩
      ⟨0, 0, 0⟩ (some "#123456") (some "#654321")).1 (by decide),
   (C3_add_occupied_noop ⟨[⟨⟨0, 0, 0⟩, "#ff0000"⟩], [0], [[0]], 0, "#00ff00", ToolType.PENCIL⟩
      ⟨0, 0, 0⟩ (some "#123456") (some "#654321")).2⟩

/-- C4 counterexample: the claim's color rule `color ?? currentColor` fails on
the code.  `addVoxel` computes `overrideColor || currentColor`, so an
explicitly supplied empty-string color (falsy but not nullish) is replaced by
the current color: adding at `(0,0,0)` with override `""` while the current
color is `"#00ff00"` appends a `"#00ff00"` voxel, not a `""` voxel as
`"" ?? currentColor = ""` would demand. -/
theorem C4_add_counterexample :
    content (addVoxel ⟨0, 0, 0⟩ (some "") (initState "#00ff00")) ≠
      [⟨⟨0, 0, 0⟩, ""⟩] ∧
    content (addVoxel ⟨0, 0, 0⟩ (some "") (initState "#00ff00")) =
      [⟨⟨0, 0, 0⟩, "#00ff00"⟩] := by
  constructor
  · decide
  · decide

/-- C4 (amended): adding at an unoccupied position appends exactly one voxel
`{position, color: overrideColor || currentColor}` at the end of the store
(existing voxels kept in order), and records exactly one history snapshot:
the history grows to `min(retained + 1, 20)` entries, its last snapshot is the
new store, and the cursor lands on that last snapshot.  The only change from
the claim is the color rule: the code's `||` makes an empty-string override
fall back to the current color, where the claim's `??` would keep it. -/
theorem C4_add_appends (s : EditorState) (pos : Vec3) (c : Option String)
    (hocc : occupiedB pos s = false)
    (hb : ∀ id ∈ s.voxels, id < s.heap.length)
    (hk : (s.historyStep + 1).toNat ≤ s.history.length)
    (hlen : s.history.length ≤ 20) :
    content (addVoxel pos c s) = content s ++ [⟨pos, resolveColor c s.currentColor⟩] ∧
    (addVoxel pos c s).history.length = min ((s.historyStep + 1).toNat + 1) 20 ∧
    (addVoxel pos c s).history.getLast? = some ((addVoxel pos c s).voxels) ∧
    (addVoxel pos c s).historyStep = ((addVoxel pos c s).history.length : Int) - 1 := by
  refine ⟨content_addVoxel pos c s hocc hb, ?_, ?_, ?_⟩
  · rw [addVoxel_not_occupied pos c s hocc]
    exact recordHistory_length _ _ hk hlen
  · rw [addVoxel_not_occupied pos c s hocc]
    exact recordHistory_getLast _ _
  · rw [addVoxel_not_occupied pos c s hocc]
    exact recordHistory_step _ _

/-- Witness for C4 at the spec's example scenario: store `[{(0,0,0),#ff0000}]`
with one recorded snapshot, current color `#00ff00`, `add((1,0,0), undefined)`. -/
theorem C4_add_appends_witness :
    (occupiedB ⟨1, 0, 0⟩ ⟨[⟨⟨0, 0, 0⟩, "#ff0000"⟩], [0], [[0]], 0, "#00ff00", ToolType.PENCIL⟩
       = false) ∧
    content (addVoxel ⟨1, 0, 0⟩ none
        ⟨[⟨⟨0, 0, 0⟩, "#ff0000"⟩], [0], [[0]], 0, "#00ff00", ToolType.PENCIL⟩) =
      content ⟨[⟨⟨0, 0, 0⟩, "#ff0000"⟩], [0], [[0]], 0, "#00ff00", ToolType.PENCIL⟩ ++
        [⟨⟨1, 0, 0⟩, resolveColor none "#00ff00"⟩] ∧
    (addVoxel ⟨1, 0, 0⟩ none
        ⟨[⟨⟨0, 0, 0⟩, "#ff0000"⟩], [0], [[0]], 0, "#00ff00", ToolType.PENCIL⟩).history.length =
      min (((0 : Int) + 1).toNat + 1) 20 :=
  ⟨by decide,
   (C4_add_appends ⟨[⟨⟨0, 0, 0⟩, "#ff0000"⟩], [0], [[0]], 0, "#00ff00", ToolType.PENCIL⟩
      ⟨1, 0, 0⟩ none (by decide) (by decide) (by decide) (by decide)).1,
   (C4_add_appends ⟨[⟨⟨0, 0, 0⟩, "#ff0000"⟩], [0], [[0]], 0, "#00ff00", ToolType.PENCIL⟩
      ⟨1, 0, 0⟩ none (by decide) (by decide) (by decide) (by decide)).2.1⟩

/-- C2 counterexample: `removeAt` does not fail on an out-of-range index.  On
the one-voxel store below, `removeVoxel 5` completes normally as a recorded
mutation — the store content is unchanged but a fresh history snapshot is
pushed and the cursor advances — so no `IndexOutOfRange` (nor any other
failure) is signalled, contradicting the claimed validity contract.  The
source `voxels.filter((_, i) => i !== index)` has no error path at all. -/
theorem C2_remove_counterexample :
    content (removeVoxel 5 ⟨[⟨⟨0, 0, 0⟩, "#ff0000"⟩], [0], [[0]], 0, "#abcdef",
        ToolType.PENCIL⟩) =
      content ⟨[⟨⟨0, 0, 0⟩, "#ff0000"⟩], [0], [[0]], 0, "#abcdef", ToolType.PENCIL⟩ ∧
    (removeVoxel 5 ⟨[⟨⟨0, 0, 0⟩, "#ff0000"⟩], [0], [[0]], 0, "#abcdef",
        ToolType.PENCIL⟩).history = [[0], [0]] ∧
    (removeVoxel 5 ⟨[⟨⟨0, 0, 0⟩, "#ff0000"⟩], [0], [[0]], 0, "#abcdef",
        ToolType.PENCIL⟩).historyStep = 1 := by
  refine ⟨?_, ?_, ?_⟩
  · decide
  · decide
  · decide

/-- C2 (amended): the two operations do not share a validity contract, and
neither signals `IndexOutOfRange`.  For every invalid (negative or
out-of-range) index, `removeVoxel` does not fail: its filter matches nothing,
so the store content is unchanged, yet a history snapshot of the unchanged
store is still recorded.  `updateVoxelColor` does fail, but with a runtime
type error on the `undefined` element (modelled as `none`), the React state
untouched. -/
theorem C2_invalid_index_contract (s : EditorState) (index : Int)
    (h : index < 0 ∨ (s.voxels.length : Int) ≤ index) :
    content (removeVoxel index s) = content s ∧
    (removeVoxel index s).history.getLast? = some s.voxels ∧
    updateVoxelColor index s = none := by
  rw [removeVoxel_invalid index s h]
  exact ⟨content_recordHistory s.voxels s, recordHistory_getLast s.voxels s,
    updateVoxelColor_invalid index s h⟩

/-- Witness for C2 at a concrete out-of-range index. -/
theorem C2_invalid_index_contract_witness :
    ((5 : Int) < 0 ∨
      ((⟨[⟨⟨0, 0, 0⟩, "#ff0000"⟩], [0], [[0]], 0, "#abcdef",
          ToolType.PENCIL⟩ : EditorState).voxels.length : Int) ≤ 5) ∧
    (content (removeVoxel 5 ⟨[⟨⟨0, 0, 0⟩, "#ff0000"⟩], [0], [[0]], 0, "#abcdef",
        ToolType.PENCIL⟩) =
      content ⟨[⟨⟨0, 0, 0⟩, "#ff0000"⟩], [0], [[0]], 0, "#abcdef", ToolType.PENCIL⟩ ∧
    (removeVoxel 5 ⟨[⟨⟨0, 0, 0⟩, "#ff0000"⟩], [0], [[0]], 0, "#abcdef",
        ToolType.PENCIL⟩).history.getLast? = some [0] ∧
    updateVoxelColor 5 ⟨[⟨⟨0, 0, 0⟩, "#ff0000"⟩], [0], [[0]], 0, "#abcdef",
        ToolType.PENCIL⟩ = none) :=
  ⟨by decide,
   C2_invalid_index_contract ⟨[⟨⟨0, 0, 0⟩, "#ff0000"⟩], [0], [[0]], 0, "#abcdef",
      ToolType.PENCIL⟩ 5 (by decide)⟩

/-- C10 counterexample: the cursor does not always advance.  On a state whose
history already holds the 20-entry cap with the cursor on the last snapshot,
an out-of-range `removeVoxel` still records a snapshot (evicting the oldest),
but the cursor stays at 19 instead of advancing. -/
theorem C10_remove_counterexample :
    (removeVoxel 5 ⟨[⟨⟨0, 0, 0⟩, "#ff0000"⟩], [0], List.replicate 20 [0], 19, "#abcdef",
        ToolType.PENCIL⟩).historyStep =
      (⟨[⟨⟨0, 0, 0⟩, "#ff0000"⟩], [0], List.replicate 20 [0], 19, "#abcdef",
        ToolType.PENCIL⟩ : EditorState).historyStep ∧
    content (removeVoxel 5 ⟨[⟨⟨0, 0, 0⟩, "#ff0000"⟩], [0], List.replicate 20 [0], 19, "#abcdef",
        ToolType.PENCIL⟩) =
      content ⟨[⟨⟨0, 0, 0⟩, "#ff0000"⟩], [0], List.replicate 20 [0], 19, "#abcdef",
        ToolType.PENCIL⟩ := by
  constructor
  · decide
  · decide

/-- C10 (amended): an out-of-range `removeVoxel` leaves the store content
unchanged but still consumes a history slot: a new snapshot (equal to the
unchanged store) is recorded, the history grows to `min(retained + 1, 20)`
entries, the cursor moves to the new last index (one more than before except
when the 20-entry cap forces eviction, in which case it stays at 19), and any
redo branch is discarded — an immediate `redo` afterwards is a no-op. -/
theorem C10_invalid_remove_records (s : EditorState) (index : Int)
    (h : index < 0 ∨ (s.voxels.length : Int) ≤ index)
    (hk : (s.historyStep + 1).toNat ≤ s.history.length)
    (hlen : s.history.length ≤ 20) :
    content (removeVoxel index s) = content s ∧
    (removeVoxel index s).history.length = min ((s.historyStep + 1).toNat + 1) 20 ∧
    (removeVoxel index s).historyStep = ((removeVoxel index s).history.length : Int) - 1 ∧
    (removeVoxel index s).history.getLast? = some s.voxels ∧
    redo (removeVoxel index s) = removeVoxel index s := by
  rw [removeVoxel_invalid index s h]
  exact ⟨content_recordHistory s.voxels s, recordHistory_length _ _ hk hlen,
    recordHistory_step _ _, recordHistory_getLast _ _, redo_recordHistory _ _⟩

/-- Witness for C10 at a concrete out-of-range index on a short history. -/
theorem C10_invalid_remove_records_witness :
    (((-3 : Int) < 0 ∨
      ((⟨[⟨⟨0, 0, 0⟩, "#ff0000"⟩], [0], [[0]], 0, "#abcdef",
          ToolType.PENCIL⟩ : EditorState).voxels.length : Int) ≤ -3)) ∧
    (content (removeVoxel (-3) ⟨[⟨⟨0, 0, 0⟩, "#ff0000"⟩], [0], [[0]], 0, "#abcdef",
        ToolType.PENCIL⟩) =
      content ⟨[⟨⟨0, 0, 0⟩, "#ff0000"⟩], [0], [[0]], 0, "#abcdef", ToolType.PENCIL⟩ ∧
    (removeVoxel (-3) ⟨[⟨⟨0, 0, 0⟩, "#ff0000"⟩], [0], [[0]], 0, "#abcdef",
        ToolType.PENCIL⟩).history.length = min (((0 : Int) + 1).toNat + 1) 20 ∧
    (removeVoxel (-3) ⟨[⟨⟨0, 0, 0⟩, "#ff0000"⟩], [0], [[0]], 0, "#abcdef",
        ToolType.PENCIL⟩).historyStep =
      (((removeVoxel (-3) ⟨[⟨⟨0, 0, 0⟩, "#ff0000"⟩], [0], [[0]], 0, "#abcdef",
        ToolType.PENCIL⟩).history.length : Int) - 1) ∧
    (removeVoxel (-3) ⟨[⟨⟨0, 0, 0⟩, "#ff0000"⟩], [0], [[0]], 0, "#abcdef",
        ToolType.PENCIL⟩).history.getLast? = some [0] ∧
    redo (removeVoxel (-3) ⟨[⟨⟨0, 0, 0⟩, "#ff0000"⟩], [0], [[0]], 0, "#abcdef",
        ToolType.PENCIL⟩) =
      removeVoxel (-3) ⟨[⟨⟨0, 0, 0⟩, "#ff0000"⟩], [0], [[0]], 0, "#abcdef",
        ToolType.PENCIL⟩) :=
  ⟨by decide,
   C10_invalid_remove_records ⟨[⟨⟨0, 0, 0⟩, "#ff0000"⟩], [0], [[0]], 0, "#abcdef",
      ToolType.PENCIL⟩ (-3) (by decide) (by decide) (by decide)⟩

/-- C1: the claim fails on the code for a PAINT mutation — this theorem
evaluates the failing trace.  From the default state with current color
`#ff0000`: add a voxel at the origin (store content `[{(0,0,0),#ff0000}]`,
recorded), change the current color to `#00ff00`, PAINT index 0
(`updateVoxelColor`), then `undo`.  Because `updateVoxelColor` mutates the
voxel object in place while every history snapshot is only a shallow copy
(`[...newVoxels]`) aliasing the same object, the pre-PAINT snapshot is
corrupted too, and after `undo` the store content still shows `#00ff00`
instead of the `#ff0000` that existed immediately before the mutation. -/
theorem C1_paint_undo_not_restored :
    content (addVoxel ⟨0, 0, 0⟩ none (initState "#ff0000")) =
      [⟨⟨0, 0, 0⟩, "#ff0000"⟩] ∧
    (updateVoxelColor 0
        (setCurrentColor "#00ff00" (addVoxel ⟨0, 0, 0⟩ none (initState "#ff0000")))).map
        (fun s => content (undo s)) =
      some [⟨⟨0, 0, 0⟩, "#00ff00"⟩] := by
  constructor
  · decide
  · decide

/-- C5: for every sequence of editor events starting from the empty store
(including every sequence of add, remove and recolor operations), the store
contains no two voxels with the same position. -/
theorem C5_no_duplicate_positions (c0 : String) (ops : List Op) :
    ((content (run c0 ops)).map Voxel.position).Nodup := by
  have h := (run_WF c0 ops).2.1
  unfold content
  rw [List.map_map]
  exact h

/-- C6: the history is capped at 20 snapshots.  (a) Along every event
sequence the history never holds more than 20 entries.  (b) Recording a 21st
snapshot onto a full history with the cursor on the last entry evicts the
oldest entry (every retained snapshot shifts down one index) and leaves the
cursor at 19.  (c) After that (the cursor being at most 19), `undo` can reach
back at most 20 steps: a 20th consecutive `undo` changes nothing beyond the
19th. -/
theorem C6_history_capped :
    (∀ (c0 : String) (ops : List Op), (run c0 ops).history.length ≤ 20) ∧
    (∀ (s : EditorState) (r : List VoxelId), s.history.length = 20 → s.historyStep = 19 →
      (recordHistory r s).history = s.history.tail ++ [r] ∧
      (recordHistory r s).historyStep = 19) ∧
    (∀ s : EditorState, s.historyStep ≤ 19 → undo^[20] s = undo^[19] s) := by
  refine ⟨fun c0 ops => (run_WF c0 ops).2.2.2, ?_, ?_⟩
  · intro s r hlen20 hstep
    have ht : s.history.take (s.historyStep + 1).toNat = s.history := by
      rw [hstep]
      exact List.take_of_length_le (by rw [hlen20]; decide)
    have hne : s.history ≠ [] := by
      intro he
      rw [he] at hlen20
      simp at hlen20
    have hgt : 20 < (s.history.take (s.historyStep + 1).toNat ++ [r]).length := by
      rw [ht, List.length_append, hlen20, List.length_singleton]
      omega
    constructor
    · show (if 20 < (s.history.take (s.historyStep + 1).toNat ++ [r]).length then
              (s.history.take (s.historyStep + 1).toNat ++ [r]).tail
            else s.history.take (s.historyStep + 1).toNat ++ [r]) = s.history.tail ++ [r]
      rw [if_pos hgt, ht, List.tail_append_of_ne_nil hne]
    · show ((if 20 < (s.history.take (s.historyStep + 1).toNat ++ [r]).length then
              (s.history.take (s.historyStep + 1).toNat ++ [r]).tail
            else s.history.take (s.historyStep + 1).toNat ++ [r]).length : Int) - 1 = 19
      rw [if_pos hgt, ht, List.tail_append_of_ne_nil hne, List.length_append,
        List.length_tail, hlen20]
      rfl
  · intro s h
    exact undo_iterate_stable 19 s (by exact_mod_cast h)

/-- Witness for C6: the empty run for (a); a full 20-entry history with the
cursor at 19 for (b) and (c). -/
theorem C6_history_capped_witness :
    (run "#000000" []).history.length ≤ 20 ∧
    ((recordHistory [0] ⟨[], [], List.replicate 20 [], 19, "#000000",
        ToolType.PENCIL⟩).history =
      (⟨[], [], List.replicate 20 [], 19, "#000000",
        ToolType.PENCIL⟩ : EditorState).history.tail ++ [[0]] ∧
    (recordHistory [0] ⟨[], [], List.replicate 20 [], 19, "#000000",
        ToolType.PENCIL⟩).historyStep = 19) ∧
    undo^[20] (⟨[], [], List.replicate 20 [], 19, "#000000",
        ToolType.PENCIL⟩ : EditorState) =
      undo^[19] (⟨[], [], List.replicate 20 [], 19, "#000000",
        ToolType.PENCIL⟩ : EditorState) :=
  ⟨C6_history_capped.1 "#000000" [],
   C6_history_capped.2.1 ⟨[], [], List.replicate 20 [], 19, "#000000", ToolType.PENCIL⟩ [0]
     (by decide) (by decide),
   C6_history_capped.2.2 ⟨[], [], List.replicate 20 [], 19, "#000000", ToolType.PENCIL⟩
     (by decide)⟩

/-- C7: recording after an undo discards the redo branch — after any
`record; record; undo; record` sequence (from any state, with any snapshots),
an immediate `redo` is a no-op: the whole state, cursor and store included,
is unchanged.  This is an instance of the general fact that `recordHistory`
always leaves the cursor on the last snapshot, where `redo`'s guard fails. -/
theorem C7_record_after_undo_kills_redo (s : EditorState) (r1 r2 r3 : List VoxelId) :
    redo (recordHistory r3 (undo (recordHistory r2 (recordHistory r1 s)))) =
      recordHistory r3 (undo (recordHistory r2 (recordHistory r1 s))) :=
  redo_recordHistory r3 (undo (recordHistory r2 (recordHistory r1 s)))

/-- C8 counterexample: the dispatched color is not always the source voxel's
own color.  With the DUPLICATE tool active on a store whose only voxel has
the empty-string color `""` and with current color `"#00ff00"`, clicking that
voxel with face normal `(1,0,0)` appends a voxel colored `"#00ff00"` — the
currently selected paint color, not the clicked source voxel's own color —
because `addVoxel`'s `overrideColor || currentColor` treats the passed `""`
as falsy. -/
theorem C8_duplicate_counterexample :
    (handleVoxelClick 0 (some ⟨1, 0, 0⟩)
        ⟨[⟨⟨0, 0, 0⟩, ""⟩], [0], [], -1, "#00ff00", ToolType.DUPLICATE⟩).map content =
      some [⟨⟨0, 0, 0⟩, ""⟩, ⟨⟨1, 0, 0⟩, "#00ff00"⟩] ∧
    (⟨[⟨⟨0, 0, 0⟩, ""⟩], [0], [], -1, "#00ff00",
        ToolType.DUPLICATE⟩ : EditorState).currentColor = "#00ff00" ∧
    (heapGet (⟨[⟨⟨0, 0, 0⟩, ""⟩], [0], [], -1, "#00ff00",
        ToolType.DUPLICATE⟩ : EditorState).heap 0).color ≠ "#00ff00" := by
  refine ⟨?_, ?_, ?_⟩
  · decide
  · decide
  · decide

/-- C8 (amended): a voxel click with a resolvable face normal while DUPLICATE
is active dispatches an `addVoxel` at the clicked voxel's position plus the
face normal with the clicked source voxel's own color as override — the
current paint color never enters the dispatch — and, whenever the source
voxel's color is non-empty (the code's `||` makes an empty-string color fall
back to the current color) and the target cell is free, the appended voxel
carries exactly the source voxel's color, whatever the current color is and
however often it was changed beforehand. -/
theorem C8_duplicate_uses_source_color (s : EditorState) (index : Nat) (n : Vec3)
    (ht : s.currentTool = ToolType.DUPLICATE)
    (hidx : index < s.voxels.length)
    (hb : ∀ id ∈ s.voxels, id < s.heap.length)
    (hc : (heapGet s.heap (s.voxels.getD index 0)).color ≠ "")
    (hocc : occupiedB (vecAdd (heapGet s.heap (s.voxels.getD index 0)).position n) s
      = false) :
    handleVoxelClick index (some n) s =
      some (addVoxel (vecAdd (heapGet s.heap (s.voxels.getD index 0)).position n)
        (some (heapGet s.heap (s.voxels.getD index 0)).color) s) ∧
    (handleVoxelClick index (some n) s).map content =
      some (content s ++ [⟨vecAdd (heapGet s.heap (s.voxels.getD index 0)).position n,
        (heapGet s.heap (s.voxels.getD index 0)).color⟩]) := by
  have hd : handleVoxelClick index (some n) s =
      some (addVoxel (vecAdd (heapGet s.heap (s.voxels.getD index 0)).position n)
        (some (heapGet s.heap (s.voxels.getD index 0)).color) s) := by
    unfold handleVoxelClick
    rw [ht]
    show (if index < s.voxels.length then
        some (addVoxel (vecAdd (heapGet s.heap (s.voxels.getD index 0)).position n)
          (some (heapGet s.heap (s.voxels.getD index 0)).color) s)
      else none) = _
    rw [if_pos hidx]
  refine ⟨hd, ?_⟩
  rw [hd]
  show some (content (addVoxel (vecAdd (heapGet s.heap (s.voxels.getD index 0)).position n)
      (some (heapGet s.heap (s.voxels.getD index 0)).color) s)) = _
  rw [content_addVoxel _ _ s hocc hb,
    resolveColor_some_of_ne _ s.currentColor hc]

/-- Witness for C8: a red source voxel duplicated while the current paint
color is green. -/
theorem C8_duplicate_uses_source_color_witness :
    ((⟨[⟨⟨0, 0, 0⟩, "#ff0000"⟩], [0], [[0]], 0, "#00ff00",
        ToolType.DUPLICATE⟩ : EditorState).currentTool = ToolType.DUPLICATE) ∧
    (handleVoxelClick 0 (some ⟨1, 0, 0⟩)
        ⟨[⟨⟨0, 0, 0⟩, "#ff0000"⟩], [0], [[0]], 0, "#00ff00", ToolType.DUPLICATE⟩).map content =
      some (content ⟨[⟨⟨0, 0, 0⟩, "#ff0000"⟩], [0], [[0]], 0, "#00ff00", ToolType.DUPLICATE⟩ ++
        [⟨vecAdd (heapGet (⟨[⟨⟨0, 0, 0⟩, "#ff0000"⟩], [0], [[0]], 0, "#00ff00",
            ToolType.DUPLICATE⟩ : EditorState).heap
            ((⟨[⟨⟨0, 0, 0⟩, "#ff0000"⟩], [0], [[0]], 0, "#00ff00",
              ToolType.DUPLICATE⟩ : EditorState).voxels.getD 0 0)).position ⟨1, 0, 0⟩,
          (heapGet (⟨[⟨⟨0, 0, 0⟩, "#ff0000"⟩], [0], [[0]], 0, "#00ff00",
            ToolType.DUPLICATE⟩ : EditorState).heap
            ((⟨[⟨⟨0, 0, 0⟩, "#ff0000"⟩], [0], [[0]], 0, "#00ff00",
              ToolType.DUPLICATE⟩ : EditorState).voxels.getD 0 0)).color⟩]) :=
  ⟨by decide,
   (C8_duplicate_uses_source_color
      ⟨[⟨⟨0, 0, 0⟩, "#ff0000"⟩], [0], [[0]], 0, "#00ff00", ToolType.DUPLICATE⟩ 0 ⟨1, 0, 0⟩
      (by decide) (by decide) (by decide) (by decide) (by decide)).2⟩

/-!
The AI preview reconciler (`updatePreviewColor` of the `App` component).
Following the spec's data-model note, a color is treated as an opaque value
with defined conversions to hue/saturation/lightness; the model represents a
preview color directly by that decomposition (exact rationals), so
`THREE.Color(...).getHSL` is projection and `setHSL` is construction.  The
target argument is the optional color value: `null` and the falsy empty
string are both `none`, matching the `if (!hex)` test in the source.
-/

/-- A color as its hue/saturation/lightness decomposition. -/
structure HSL where
  hue : ℚ
  sat : ℚ
  light : ℚ
deriving DecidableEq, Repr

/-- A staged preview voxel (`{position, color}` of the mapped AI points). -/
structure PVoxel where
  position : Vec3
  color : HSL
deriving DecidableEq, Repr

/-- The preview-related state of the `App` component: `originalPreviewRef`
(immutable once a generation lands), `previewVoxels` (what is displayed and
committed), and `previewOverrideColor`. -/
structure PreviewState where
  originalPreview : Option (List PVoxel)
  previewVoxels : Option (List PVoxel)
  previewOverrideColor : Option HSL
deriving DecidableEq, Repr

/-- The `updatePreviewColor` function: store the override; if no original
preview is staged, do nothing else; on a `null` (or falsy) target restore
`previewVoxels` to a copy of the originals; otherwise map every original
voxel to hue = target hue, saturation = `min(target.s, voxel.s * 1.2)`,
lightness = the voxel's own lightness (`finalColor.setHSL(targetHsl.h,
Math.min(targetHsl.s, voxelHsl.s * 1.2), voxelHsl.l)`). -/
def updatePreviewColor (hex : Option HSL) (ps : PreviewState) : PreviewState :=
  let ps1 : PreviewState := { ps with previewOverrideColor := hex }
  match ps1.originalPreview with
  | none => ps1
  | some orig =>
    match hex with
    | none => { ps1 with previewVoxels := some orig }
    | some target =>
      { ps1 with previewVoxels := some (orig.map (fun v =>
          { v with color := ⟨target.hue, min target.sat (v.color.sat * (6 / 5)),
              v.color.light⟩ })) }

/-- C9: on a staged preview, recoloring with a (non-null) target produces,
for each original voxel, a displayed color with the target's hue, saturation
`min(target saturation, voxel saturation * 1.2)` and the voxel's own
lightness, positions untouched; and recoloring with a null target restores
`displayedVoxels` to the unmodified originals. -/
theorem C9_preview_recolor (ps : PreviewState) (orig : List PVoxel) (target : HSL)
    (h : ps.originalPreview = some orig) :
    (updatePreviewColor (some target) ps).previewVoxels =
      some (orig.map (fun v => ⟨v.position,
        ⟨target.hue, min target.sat (v.color.sat * (6 / 5)), v.color.light⟩⟩)) ∧
    (updatePreviewColor none ps).previewVoxels = some orig := by
  constructor
  · unfold updatePreviewColor
    simp only [h]
  · unfold updatePreviewColor
    simp only [h]

/-- Witness for C9 on a one-voxel staged preview. -/
theorem C9_preview_recolor_witness :
    ((⟨some [⟨⟨0, 0, 0⟩, ⟨0, 1, 1 / 2⟩⟩], some [⟨⟨0, 0, 0⟩, ⟨0, 1, 1 / 2⟩⟩],
        none⟩ : PreviewState).originalPreview = some [⟨⟨0, 0, 0⟩, ⟨0, 1, 1 / 2⟩⟩]) ∧
    ((updatePreviewColor (some ⟨1 / 3, 1 / 2, 3 / 4⟩)
        ⟨some [⟨⟨0, 0, 0⟩, ⟨0, 1, 1 / 2⟩⟩], some [⟨⟨0, 0, 0⟩, ⟨0, 1, 1 / 2⟩⟩],
          none⟩).previewVoxels =
      some (([⟨⟨0, 0, 0⟩, ⟨0, 1, 1 / 2⟩⟩] : List PVoxel).map (fun v => ⟨v.position,
        ⟨(⟨1 / 3, 1 / 2, 3 / 4⟩ : HSL).hue,
          min (⟨1 / 3, 1 / 2, 3 / 4⟩ : HSL).sat (v.color.sat * (6 / 5)),
          v.color.light⟩⟩)) ∧
    (updatePreviewColor none
        ⟨some [⟨⟨0, 0, 0⟩, ⟨0, 1, 1 / 2⟩⟩], some [⟨⟨0, 0, 0⟩, ⟨0, 1, 1 / 2⟩⟩],
          none⟩).previewVoxels = some [⟨⟨0, 0, 0⟩, ⟨0, 1, 1 / 2⟩⟩]) :=
  ⟨rfl,
   C9_preview_recolor
     ⟨some [⟨⟨0, 0, 0⟩, ⟨0, 1, 1 / 2⟩⟩], some [⟨⟨0, 0, 0⟩, ⟨0, 1, 1 / 2⟩⟩], none⟩
     [⟨⟨0, 0, 0⟩, ⟨0, 1, 1 / 2⟩⟩] ⟨1 / 3, 1 / 2, 3 / 4⟩ rfl⟩
